import Mathlib

/-!
Verification of the digo build engine core (`src/lib/builder/file.ts`,
`src/lib/builder/plugin.ts`) against its natural-language specification.

The TypeScript classes are shallowly embedded: the mutable `File` object becomes
the record `Digo.FileSt` with explicit state passing, the per-file "dynamic
property shadowing" pattern (`setProperty`) becomes an own-property association
list consulted before the global defaults, and the event-driven `FileList`
pipeline becomes pure functions that return the calls and actions the original
code would perform. External utilities that are not part of the sources
(`utility/encode`, `utility/url`, `utility/path`, `utility/sourceMap`,
`utility/fs`) are modelled from the specification and carry a doc comment
saying so; everything else is translated from the source files.
-/

namespace Digo

/-- Byte buffers (Node `Buffer`) are modelled as lists of byte values. -/
abbrev Buffer := List Nat

/-- Modelled from the spec: `utility/encode.stringToBuffer` converts text to
bytes using the file's encoding; the concrete transcoding is irrelevant to the
claims, so characters are mapped to their code points. -/
def stringToBuffer (s : String) (_enc : String) : Buffer :=
  s.data.map Char.toNat

/-- Modelled from the spec: `utility/encode.bufferToString`, inverse direction
of `stringToBuffer`. -/
def bufferToString (b : Buffer) (_enc : String) : String :=
  String.mk (b.map Char.ofNat)

/-- The base64 alphabet, used by the data-URI helper. -/
def base64Chars : List Char :=
  "ABCDEFGHIJKLMNOPQRSTUVWXYZabcdefghijklmnopqrstuvwxyz0123456789+/".data

/-- Character of the base64 alphabet at the given index. -/
def base64Char (n : Nat) : Char := base64Chars.getD n '='

/-- Standard base64 encoding of a byte list (with padding). -/
def base64Encode : Buffer → List Char
  | [] => []
  | [a] => [base64Char (a / 4), base64Char (a % 4 * 16), '=', '=']
  | [a, b] => [base64Char (a / 4), base64Char (a % 4 * 16 + b / 16), base64Char (b % 16 * 4), '=']
  | a :: b :: c :: rest =>
    base64Char (a / 4) :: base64Char (a % 4 * 16 + b / 16) ::
      base64Char (b % 16 * 4 + c / 64) :: base64Char (c % 64) :: base64Encode rest

/-- Modelled from the spec: `utility/encode.base64Uri(mime, payload)` forms a
`data:<mime>;base64,<base64 payload>` URI. -/
def base64Uri (mime : String) (payload : String) : String :=
  "data:" ++ mime ++ ";base64," ++ String.mk (base64Encode (stringToBuffer payload "utf-8"))

/-- Modelled from the spec: `utility/path.resolvePath(base, p)` resolves a path
against a base directory; absolute paths are kept. -/
def resolvePath (base : String) (p : String) : String :=
  if p.data.head? == some '/' then p else base ++ "/" ++ p

/-- Modelled from the spec: the one-argument `resolvePath(srcPath?)` used by the
`File` constructor; an absent or empty source path stays empty (the file is
generated), other paths are resolved against the working directory. -/
def resolvePathOpt : Option String → String
  | none => ""
  | some s => if s = "" then "" else resolvePath "." s

/-- Modelled from the spec: `utility/path.pathEquals` (case sensitivity of the
underlying filesystem is elided; paths compare as strings). -/
def pathEquals (a b : String) : Bool := a == b

/-- Split a character list on a separator character. -/
def splitOnCharAux (sep : Char) : List Char → List Char → List (List Char)
  | [], acc => [acc.reverse]
  | c :: rest, acc =>
    if c == sep then acc.reverse :: splitOnCharAux sep rest []
    else splitOnCharAux sep rest (c :: acc)

/-- Split a path on separators, dropping empty segments. -/
def splitPath (p : String) : List String :=
  ((splitOnCharAux '/' p.data []).map String.mk).filter (fun s => s != "")

/-- Join path segments with slashes. -/
def joinWithSlash : List String → String
  | [] => ""
  | [s] => s
  | s :: rest => s ++ "/" ++ joinWithSlash rest

/-- Drop the common prefix of two segment lists. -/
def dropCommon : List String → List String → List String × List String
  | a :: as, b :: bs => if a = b then dropCommon as bs else (a :: as, b :: bs)
  | as, bs => (as, bs)

/-- Modelled from the spec: `utility/url.relativeUrl(base, target)` — the
relative URL that reaches `target` from the file at `base`. -/
def relativeUrl (base : String) (target : String) : String :=
  let bdir := (splitPath base).dropLast
  let t := splitPath target
  let p := dropCommon bdir t
  joinWithSlash (p.1.map (fun _ => "..") ++ p.2)

/-- Modelled from the spec (§4.2 step 5, §6): `utility/sourceMap.emitSourceMapUrl`
appends a sourceMappingURL comment for the given url — `//#` style when the
output uses line comments (`.js`), `/*# ... */` otherwise; with no url the
content is returned unchanged. -/
def emitSourceMapUrl (content : String) (url : Option String) (singleLineComment : Bool) : String :=
  match url with
  | none => content
  | some u =>
    if singleLineComment then content ++ "\n//# sourceMappingURL=" ++ u
    else content ++ "\n/*# sourceMappingURL=" ++ u ++ " */"

/-- `WorkingMode` (file.ts): a bit mask — build 0, preview 1, clean 2, watch 4. -/
def WorkingMode.build : Nat := 0

/-- `WorkingMode.preview` bit. -/
def WorkingMode.preview : Nat := 1

/-- `WorkingMode.clean` bit. -/
def WorkingMode.clean : Nat := 2

/-- `workingMode & WorkingMode.clean` test used throughout file.ts. -/
def isClean (mode : Nat) : Bool := mode &&& 2 != 0

/-- `workingMode & WorkingMode.preview` test used by `File.save`. -/
def isPreview (mode : Nat) : Bool := mode &&& 1 != 0

/-- A dynamically-typed property value, as stored by `setProperty`: the per-file
override slots of `File` hold whatever value the setter was handed. -/
inductive JsVal where
  | vBool : Bool → JsVal
  | vStr : String → JsVal
  deriving DecidableEq, Repr

/-- JavaScript truthiness of a property value. -/
def JsVal.truthy : JsVal → Bool
  | vBool b => b
  | vStr s => s != ""

/-- JavaScript string coercion of a property value. -/
def JsVal.asStr : JsVal → String
  | vStr s => s
  | vBool b => if b then "true" else "false"

/-- JavaScript `a || d` on an optional property value, coercing to string. -/
def jsOr (a : Option JsVal) (d : String) : String :=
  match a with
  | some v => if v.truthy then v.asStr else d
  | none => d

/-- JavaScript `a || d` on an optional string. -/
def jsStrOr (a : Option String) (d : String) : String :=
  match a with
  | some s => if s != "" then s else d
  | none => d

/-- The state of a `File` object (file.ts): source and target paths, the four
lazy content slots, the source-map data (carried in its serialized JSON form;
the spec's three interchangeable forms are coerced on demand), the diagnostic
counters, and the own properties installed by `setProperty` (the per-file
overrides of the global defaults). -/
structure FileSt where
  srcPath : String
  path : String
  srcBuffer : Option Buffer := none
  srcContent : Option String := none
  destBuffer : Option Buffer := none
  destContent : Option String := none
  sourceMapData : Option String := none
  errorCount : Nat := 0
  warningCount : Nat := 0
  props : List (String × JsVal) := []
  deriving DecidableEq, Repr

/-- Global defaults and hooks of file.ts (the module-level `var`s). The global
`sourceMapPath` / `sourceMapUrl` callbacks are modelled by the value they would
return for the file at hand (`none` = the callback is `null`). -/
structure Globals where
  encoding : String := "utf-8"
  overwrite : Bool := false
  sourceMap : Bool := true
  sourceMapPath : Option String := none
  sourceMapUrl : Option String := none
  sourceMapInline : Bool := false
  sourceMapEmit : Bool := true
  onValidateFile : Option (String → FileSt → Bool) := none

/-- Look up an own property installed by `setProperty` (latest write wins). -/
def FileSt.getProp (f : FileSt) (name : String) : Option JsVal :=
  (f.props.find? (fun p => p.1 == name)).map Prod.snd

/-- `setProperty(this, name, value)`: install an own property that shadows the
prototype getter (utility/object, behaviour fixed by its unit test and §9). -/
def FileSt.setProp (f : FileSt) (name : String) (v : JsVal) : FileSt :=
  { f with props := (name, v) :: f.props }

/-- `File.encoding` getter: own property else the global default. -/
def FileSt.encodingGet (g : Globals) (f : FileSt) : String :=
  match f.getProp "encoding" with
  | some (JsVal.vStr s) => s
  | _ => g.encoding

/-- `File.sourceMapInline` getter: the raw own property else the global flag. -/
def FileSt.sourceMapInlineGet (g : Globals) (f : FileSt) : JsVal :=
  (f.getProp "sourceMapInline").getD (JsVal.vBool g.sourceMapInline)

/-- `File.sourceMapEmit` getter: the raw own property else the global flag. -/
def FileSt.sourceMapEmitGet (g : Globals) (f : FileSt) : JsVal :=
  (f.getProp "sourceMapEmit").getD (JsVal.vBool g.sourceMapEmit)

/-- `File.overwrite` getter: the raw own property else the global flag. -/
def FileSt.overwriteGet (g : Globals) (f : FileSt) : JsVal :=
  (f.getProp "overwrite").getD (JsVal.vBool g.overwrite)

/-- `File.sourceMapUrl` getter (file.ts:372): an own property shadows it, else
the global `sourceMapUrl` callback's value, else `undefined`. -/
def FileSt.sourceMapUrlGet (g : Globals) (f : FileSt) : Option JsVal :=
  match f.getProp "sourceMapUrl" with
  | some v => some v
  | none => g.sourceMapUrl.map JsVal.vStr

/-- `File.sourceMapPath` getter (file.ts:325): an own property shadows it, else
the global `sourceMapPath` callback's value, else `undefined`. -/
def FileSt.sourceMapPathGet (g : Globals) (f : FileSt) : Option JsVal :=
  match f.getProp "sourceMapPath" with
  | some v => some v
  | none => g.sourceMapPath.map JsVal.vStr

/-- `File.sourceMapUrl` setter, translated exactly as written (file.ts:382):
`setProperty(this, "sourceMapInline", value)` — the own property is installed
under the key `"sourceMapInline"`, not `"sourceMapUrl"`. -/
def FileSt.setSourceMapUrl (f : FileSt) (v : JsVal) : FileSt :=
  f.setProp "sourceMapInline" v

/-- `File.sourceMapInline` setter (file.ts:366). -/
def FileSt.setSourceMapInline (f : FileSt) (v : JsVal) : FileSt :=
  f.setProp "sourceMapInline" v

/-- `File.sourceMapEmit` setter (file.ts:354). -/
def FileSt.setSourceMapEmit (f : FileSt) (v : JsVal) : FileSt :=
  f.setProp "sourceMapEmit" v

/-- `File.overwrite` setter (file.ts:720). -/
def FileSt.setOverwrite (f : FileSt) (v : JsVal) : FileSt :=
  f.setProp "overwrite" v

/-- `File.sourceMapPath` setter (file.ts:334). -/
def FileSt.setSourceMapPath (f : FileSt) (v : JsVal) : FileSt :=
  f.setProp "sourceMapPath" v

/-- `File.modified` getter (file.ts:262): a dest slot is populated. -/
def FileSt.modified (f : FileSt) : Bool :=
  f.destContent.isSome || f.destBuffer.isSome

/-- `File.generated` getter (file.ts:112): the source path is empty. -/
def FileSt.generated (f : FileSt) : Bool := f.srcPath == ""

/-- `File.buffer` setter (file.ts:215): store the dest buffer, delete the dest
content, mark modified (the line-index cache drop of `setModified` has no
observable effect on the claims and is elided). -/
def FileSt.setBuffer (f : FileSt) (value : Buffer) : FileSt :=
  { f with destBuffer := some value, destContent := none }

/-- `File.content` setter (file.ts:237): store the dest content, delete the
dest buffer, mark modified. -/
def FileSt.setContent (f : FileSt) (value : String) : FileSt :=
  { f with destContent := some value, destBuffer := none }

/-- `File.data` setter (file.ts:251): strings go to `content`, bytes to
`buffer`. -/
def FileSt.setData (f : FileSt) (value : String ⊕ Buffer) : FileSt :=
  match value with
  | Sum.inl s => f.setContent s
  | Sum.inr b => f.setBuffer b

/-- `File.srcBuffer` getter (file.ts:131): cached; else derived from
`_srcContent`; else read synchronously from disk when the file has a source
path and the mode is not clean; else the empty buffer. `fs` is the synchronous
read capability. -/
def FileSt.getSrcBuffer (g : Globals) (fs : String → Buffer) (mode : Nat) (f : FileSt) :
    Buffer × FileSt :=
  match f.srcBuffer with
  | some b => (b, f)
  | none =>
    match f.srcContent with
    | some c =>
      let b := stringToBuffer c (f.encodingGet g)
      (b, { f with srcBuffer := some b })
    | none =>
      if f.srcPath != "" && !isClean mode then
        let b := fs f.srcPath
        (b, { f with srcBuffer := some b })
      else
        ([], { f with srcBuffer := some [] })

/-- `File.srcContent` getter (file.ts:159), symmetric to `srcBuffer`. -/
def FileSt.getSrcContent (g : Globals) (fs : String → Buffer) (mode : Nat) (f : FileSt) :
    String × FileSt :=
  match f.srcContent with
  | some c => (c, f)
  | none =>
    match f.srcBuffer with
    | some b =>
      let c := bufferToString b (f.encodingGet g)
      (c, { f with srcContent := some c })
    | none =>
      if f.srcPath != "" && !isClean mode then
        let c := bufferToString (fs f.srcPath) (f.encodingGet g)
        (c, { f with srcContent := some c })
      else
        ("", { f with srcContent := some "" })

/-- `File.buffer` getter (file.ts:202): the dest buffer; else the dest content
converted and cached into `_destBuffer` (the sibling `_destContent` is NOT
cleared); else the source buffer. -/
def FileSt.getBuffer (g : Globals) (fs : String → Buffer) (mode : Nat) (f : FileSt) :
    Buffer × FileSt :=
  match f.destBuffer with
  | some b => (b, f)
  | none =>
    match f.destContent with
    | some c =>
      let b := stringToBuffer c (f.encodingGet g)
      (b, { f with destBuffer := some b })
    | none => f.getSrcBuffer g fs mode

/-- `File.content` getter (file.ts:224): the dest content; else the dest buffer
converted and cached into `_destContent` (the sibling `_destBuffer` is NOT
cleared); else the source content. -/
def FileSt.getContent (g : Globals) (fs : String → Buffer) (mode : Nat) (f : FileSt) :
    String × FileSt :=
  match f.destContent with
  | some c => (c, f)
  | none =>
    match f.destBuffer with
    | some b =>
      let c := bufferToString b (f.encodingGet g)
      (c, { f with destContent := some c })
    | none => f.getSrcContent g fs mode

/-- `File.data` getter (file.ts:246): the dest content if present, else the
final buffer. Total — it never yields `undefined`. -/
def FileSt.getData (g : Globals) (fs : String → Buffer) (mode : Nat) (f : FileSt) :
    (String ⊕ Buffer) × FileSt :=
  match f.destContent with
  | some c => (Sum.inl c, f)
  | none =>
    let r := f.getBuffer g fs mode
    (Sum.inr r.1, r.2)

/-- The `File` constructor (file.ts:36): resolve the source path, default the
target path to it, and route a `data` argument through the `data` setter. -/
def mkFile (srcPath : Option String) (path : Option String) (data : Option (String ⊕ Buffer)) :
    FileSt :=
  let sp := resolvePathOpt srcPath
  let p := jsStrOr path sp
  let f : FileSt := { srcPath := sp, path := p }
  match data with
  | some d => f.setData d
  | none => f

/-- `File.clone` (file.ts:864): a new `File` built from the current paths and
`data`; reading `data` may materialize lazy slots of the original, so the
updated original is returned alongside the clone. -/
def FileSt.clone (g : Globals) (fs : String → Buffer) (mode : Nat) (f : FileSt) :
    FileSt × FileSt :=
  let r := f.getData g fs mode
  (mkFile (some f.srcPath) (some f.path) (some r.1), r.2)

/-- Modelled from the spec: `utility/fsSync.existsFileSync` — a file at the
empty path never exists (spec §8: empty `srcPath` gives `exists == false`); the
filesystem's answer for other paths is the `fsE` capability. -/
def existsFileSync (fsE : String → Bool) (p : String) : Bool :=
  if p = "" then false else fsE p

/-- `File.exists` getter (file.ts:117). -/
def FileSt.fileExists (fsE : String → Bool) (f : FileSt) : Bool :=
  existsFileSync fsE f.srcPath

/-- An I/O error, reduced to its `code` (e.g. `"EEXIST"`, `"ENOENT"`). -/
structure Err where
  code : String
  deriving DecidableEq, Repr

/-- `File.error` (file.ts:765 → `log` at error level): a `FileLogEntry` is
built — which reads `file.content`, materializing the lazy slot — and the
error counter is bumped. The rendering of the entry is external. -/
def FileSt.logError (g : Globals) (fs : String → Buffer) (mode : Nat) (f : FileSt) : FileSt :=
  let r := f.getContent g fs mode
  { r.2 with errorCount := r.2.errorCount + 1 }

/-- What `File.load` did: nothing, or an asynchronous read of `srcPath`. -/
inductive LoadAction where
  | noop
  | readSrc
  deriving DecidableEq, Repr

/-- `File.load` (file.ts:477): skip — calling back with a null error — when the
file has no source path, any content slot is already populated, or the mode is
clean; otherwise read `srcPath` asynchronously (`readResult` is the outcome the
filesystem delivers): a successful read populates `_srcBuffer`, a failed one is
reported through `file.error` and handed to the callback. -/
def FileSt.load (g : Globals) (fs : String → Buffer) (mode : Nat)
    (readResult : Except Err Buffer) (f : FileSt) : FileSt × LoadAction × Option Err :=
  if f.srcPath = "" || f.destContent.isSome || f.destBuffer.isSome ||
      f.srcBuffer.isSome || f.srcContent.isSome || isClean mode then
    (f, LoadAction.noop, none)
  else
    match readResult with
    | Except.error e => (f.logError g fs mode, LoadAction.readSrc, some e)
    | Except.ok data => ({ f with srcBuffer := some data }, LoadAction.readSrc, none)

/-- A filesystem side effect `File.save` performs. -/
inductive SaveAction where
  | deleteF : String → SaveAction
  | deleteParent : String → SaveAction
  | writeF : String → Buffer → SaveAction
  | copyF : String → String → SaveAction
  | writeMap : String → String → SaveAction
  deriving DecidableEq, Repr

/-- The observable outcome of `File.save`: the post state of the file, the
filesystem actions issued, and the error handed to the callback. -/
structure SaveOutcome where
  file : FileSt
  actions : List SaveAction
  cbErr : Option Err
  deriving DecidableEq, Repr

/-- The `onValidateFile` hook rejects the save (file.ts:510). -/
def validateRejects (g : Globals) (savePath : String) (f : FileSt) : Bool :=
  match g.onValidateFile with
  | some v => !v savePath f
  | none => false

/-- `this.sourceMapString` (file.ts:402): the serialized source-map object. -/
def FileSt.sourceMapString (f : FileSt) : String := f.sourceMapData.getD ""

/-- The local `sourceMapPath` binding of `File.save` (file.ts:543):
`sourceMapData && !sourceMapInline && (this.sourceMapPath || savePath + ".map")`. -/
def FileSt.sourceMapPathLocal (g : Globals) (savePath : String) (f : FileSt) : Option String :=
  if f.sourceMapData.isSome && !(f.sourceMapInlineGet g).truthy then
    some (jsOr (f.sourceMapPathGet g) (savePath ++ ".map"))
  else none

/-- Modelled from the spec (§4.2 step 4): the serialized final source map. Its
field rewriting (`sources`, `sourcesContent`, …) goes through the external
source-map utilities and is touched by no claim, so the serialized stored data
stands for the serialized final map. -/
def finalSourceMapString (f : FileSt) : Option String := f.sourceMapData

/-- ASCII lowercasing of one character. -/
def charLower (c : Char) : Char :=
  if 65 ≤ c.toNat && c.toNat ≤ 90 then Char.ofNat (c.toNat + 32) else c

/-- `/\.js$/i.test(path)` (file.ts:656). -/
def isJsPath (p : String) : Bool :=
  (p.data.map charLower).reverse.take 3 == ['s', 'j', '.']

/-- The content `File.save` writes in build mode when the file counts as
modified (file.ts:656): with source-map emission the content is routed through
`emitSourceMapUrl` — the url being the inline data URI, or `this.sourceMapUrl`
with NO fallback (the relative URL computed at file.ts:642 is a dead binding);
without emission the raw dest slot is written. -/
def saveWriteBuffer (g : Globals) (fs : String → Buffer) (mode : Nat)
    (sourceMapEmitL : Bool) (f : FileSt) : Buffer × FileSt :=
  if sourceMapEmitL then
    let url : Option String :=
      if (f.sourceMapInlineGet g).truthy then
        some (base64Uri "application/json" f.sourceMapString)
      else
        (f.sourceMapUrlGet g).map JsVal.asStr
    let r := f.getContent g fs mode
    (stringToBuffer (emitSourceMapUrl r.1 url (isJsPath f.path)) (r.2.encodingGet g), r.2)
  else
    match f.destBuffer with
    | some b => (b, f)
    | none => (stringToBuffer (f.destContent.getD "") (f.encodingGet g), f)

/-- `File.save` (file.ts:506): validation hook, overwrite guard, then the
working-mode dispatch — clean deletes the artifact and its sibling map, preview
does nothing observable, build writes the content (or copies the unmodified
source) and, for an external map, writes the map file. Writes themselves are
taken to succeed; the claims under verification concern the guard phase and the
content handed to `writeFile`. -/
def FileSt.save (g : Globals) (fs : String → Buffer) (mode : Nat) (dir : Option String)
    (f : FileSt) : SaveOutcome :=
  let savePath := resolvePath (jsStrOr dir ".") f.path
  if validateRejects g savePath f then
    ⟨f, [], none⟩
  else
    let sourceMapEmitL := f.sourceMapData.isSome && (f.sourceMapEmitGet g).truthy
    let modifiedL := f.modified || sourceMapEmitL
    if pathEquals f.srcPath savePath && !modifiedL then
      ⟨f, [], none⟩
    else if pathEquals f.srcPath savePath && !(f.overwriteGet g).truthy then
      ⟨f.logError g fs mode, [], some ⟨"EEXIST"⟩⟩
    else
      let sourceMapPathL := f.sourceMapPathLocal g savePath
      if isClean mode then
        ⟨f, [SaveAction.deleteF savePath, SaveAction.deleteParent savePath] ++
          (match sourceMapPathL with
           | some mp => [SaveAction.deleteF mp, SaveAction.deleteParent mp]
           | none => []), none⟩
      else if isPreview mode then
        ⟨f, [], none⟩
      else
        let r :=
          if modifiedL then
            let w := saveWriteBuffer g fs mode sourceMapEmitL f
            (SaveAction.writeF savePath w.1, w.2)
          else (SaveAction.copyF f.srcPath savePath, f)
        let mapActs :=
          if !(f.sourceMapInlineGet g).truthy then
            match finalSourceMapString f with
            | some s =>
              if s != "" then [SaveAction.writeMap (sourceMapPathL.getD (savePath ++ ".map")) s]
              else []
            | none => []
          else []
        ⟨r.2, [r.1] ++ mapActs, none⟩

/-- The emission URL the spec prescribes (§4.2 step 5), stated from the spec's
words for comparison with the translated `save`: the inline data URI when
`sourceMapInline`, else the per-file/global `sourceMapUrl`, else the relative
URL from `savePath` to the source-map path. -/
def specEmissionUrl (g : Globals) (savePath sourceMapPath : String) (f : FileSt) :
    Option String :=
  if (f.sourceMapInlineGet g).truthy then
    some (base64Uri "application/json" f.sourceMapString)
  else
    some (jsOr (f.sourceMapUrlGet g) (relativeUrl savePath sourceMapPath))

/-! ## FileList — events with replay (fileList.ts) -/

/-- A synchronous listener invocation made by the `FileList` emitter: the
listener id together with the payload — a single file (`data`) or the file
array (`end`). -/
structure ListenerCall where
  listener : Nat
  payload : FileSt ⊕ List FileSt
  deriving DecidableEq, Repr

/-- The state of a `FileList` (fileList.ts): the buffered files, the `ended`
flag, and the subscribed listener ids per event. -/
structure FileListSt where
  files : List FileSt := []
  ended : Bool := false
  dataListeners : List Nat := []
  endListeners : List Nat := []
  deriving DecidableEq, Repr

/-- `FileList.add` (fileList.ts): push the file and emit `data` to the
registered listeners. -/
def FileListSt.add (l : FileListSt) (f : FileSt) : FileListSt × List ListenerCall :=
  ({ l with files := l.files ++ [f] },
   l.dataListeners.map (fun lid => ⟨lid, Sum.inl f⟩))

/-- `FileList.end` (fileList.ts): set `ended` and emit `end` with the files. -/
def FileListSt.endList (l : FileListSt) : FileListSt × List ListenerCall :=
  ({ l with ended := true },
   l.endListeners.map (fun lid => ⟨lid, Sum.inr l.files⟩))

/-- `FileList.on("data", …)` (fileList.ts:1148): register, then replay — the
listener is invoked synchronously once per buffered file, in arrival order. -/
def FileListSt.onData (l : FileListSt) (lid : Nat) : FileListSt × List ListenerCall :=
  ({ l with dataListeners := l.dataListeners ++ [lid] },
   l.files.map (fun f => ⟨lid, Sum.inl f⟩))

/-- `FileList.on("end", …)` (fileList.ts:1158): register; when the list already
ended, the listener is invoked synchronously with the buffered files. -/
def FileListSt.onEnd (l : FileListSt) (lid : Nat) : FileListSt × List ListenerCall :=
  ({ l with endListeners := l.endListeners ++ [lid] },
   if l.ended then [⟨lid, Sum.inr l.files⟩] else [])

/-- Add a list of files in order (the upstream producer's `add` calls). -/
def FileListSt.addAll (l : FileListSt) (fs : List FileSt) : FileListSt :=
  fs.foldl (fun acc f => (acc.add f).1) l

/-! ## FileList.pipe (fileList.ts:1174)

Processors are modelled by what one invocation does to the file it holds:
complete — returning normally or calling `done` — with the file in some new
state, or throw, leaving the file in some (possibly mutated) state. The files
piped are taken as already loaded, for which `File.load` is the identity
(see the `load` model: a populated slot short-circuits it), so the `load`
callback runs synchronously. -/

/-- One processor invocation: completion with the transformed file, or a throw. -/
inductive ProcResult where
  | ok : FileSt → ProcResult
  | thrown : FileSt → ProcResult

/-- The per-file handling of `pipe` for the per-file modes (arity < 4),
fileList.ts:1205–1246: the processor runs inside `try`; an exception is caught
and attached to the file as an error diagnostic; `done` then adds the file —
so the file reaches the downstream list in either case. -/
def pipeFileStep (g : Globals) (fs : String → Buffer) (mode : Nat)
    (p : FileSt → ProcResult) (f : FileSt) : FileSt :=
  match p f with
  | ProcResult.ok f' => f'
  | ProcResult.thrown f' => f'.logError g fs mode

/-- The pending counter and output of a per-file `pipe` stage. -/
structure PipeSt where
  pending : Nat
  out : List FileSt
  ended : Bool
  deriving DecidableEq, Repr

/-- The `data` handler of the per-file modes (fileList.ts:1205): bump
`pending`, process the file, `done` adds it downstream and drops `pending`;
the downstream list ends when the counter reaches zero. -/
def pipeData (g : Globals) (fs : String → Buffer) (mode : Nat)
    (p : FileSt → ProcResult) (st : PipeSt) (f : FileSt) : PipeSt :=
  let st1 : PipeSt := { st with pending := st.pending + 1 }
  let f' := pipeFileStep g fs mode p f
  let st2 : PipeSt := { st1 with out := st1.out ++ [f'], pending := st1.pending - 1 }
  if st2.pending = 0 then { st2 with ended := true } else st2

/-- The upstream `end` handler of the per-file modes (fileList.ts:1249): drop
the extra `pending` unit reserved for `end`; at zero, end downstream. -/
def pipeEndEvent (st : PipeSt) : PipeSt :=
  let st1 : PipeSt := { st with pending := st.pending - 1 }
  if st1.pending = 0 then { st1 with ended := true } else st1

/-- A per-file `pipe` stage over an upstream that adds `files` then ends; the
counter starts at 1, reserving a unit for the upstream `end`. -/
def pipePerFile (g : Globals) (fs : String → Buffer) (mode : Nat)
    (p : FileSt → ProcResult) (files : List FileSt) : PipeSt :=
  pipeEndEvent (files.foldl (pipeData g fs mode p) ⟨1, [], false⟩)

/-- The whole-list mode of `pipe` (fileList.ts:1254, arity ≥ 4): after the
upstream `end`, the files are processed sequentially by the recursive `proc`;
`done` adds the file downstream when the arity is < 5; a throw is caught — the
error is attached to the file — and `proc` moves on WITHOUT adding it. -/
def pipeWhole (arity : Nat) (p : FileSt → ProcResult) : List FileSt → List FileSt
  | [] => []
  | f :: rest =>
    match p f with
    | ProcResult.ok f' => (if arity < 5 then [f'] else []) ++ pipeWhole arity p rest
    | ProcResult.thrown _ => pipeWhole arity p rest

/-- `FileList.pipe` for a function processor (fileList.ts:1203): arity < 4
selects the per-file modes, arity ≥ 4 the whole-list mode. -/
def pipeFn (g : Globals) (fs : String → Buffer) (mode : Nat)
    (arity : Nat) (p : FileSt → ProcResult) (files : List FileSt) : List FileSt :=
  if arity < 4 then (pipePerFile g fs mode p files).out
  else pipeWhole arity p files

/-- An observable event of the whole-list stage, for the sequencing claims. -/
inductive PipeEv where
  | upstreamEnd
  | procStart : Nat → PipeEv
  | procDone : Nat → PipeEv
  | procThrew : Nat → PipeEv
  | downstreamEnd : List FileSt → PipeEv
  deriving DecidableEq, Repr

/-- The event trace of the recursive `proc` of the whole-list mode
(fileList.ts:1259): invocation `i` starts, then either its `done` runs —
adding the file when arity < 5 — or the throw is caught; only then does
invocation `i+1` start; `result.end` fires after the last file. -/
def pipeWholeTraceAux (arity : Nat) (p : FileSt → ProcResult) (i : Nat) :
    List FileSt → List FileSt → List PipeEv × List FileSt
  | [], acc => ([PipeEv.downstreamEnd acc], acc)
  | f :: rest, acc =>
    match p f with
    | ProcResult.ok f' =>
      let acc' := if arity < 5 then acc ++ [f'] else acc
      let r := pipeWholeTraceAux arity p (i + 1) rest acc'
      (PipeEv.procStart i :: PipeEv.procDone i :: r.1, r.2)
    | ProcResult.thrown _ =>
      let r := pipeWholeTraceAux arity p (i + 1) rest acc
      (PipeEv.procStart i :: PipeEv.procThrew i :: r.1, r.2)

/-- The full trace of a whole-list stage: the upstream `end` comes first — the
whole-list mode registers its work inside the upstream `end` handler — then the
sequential per-file processing. -/
def pipeWholeTrace (arity : Nat) (p : FileSt → ProcResult) (files : List FileSt) :
    List PipeEv :=
  PipeEv.upstreamEnd :: (pipeWholeTraceAux arity p 0 files []).1

/-- The strictly sequential event pattern: `start i, done i, start (i+1), …`. -/
def seqEvs : Nat → Nat → List PipeEv
  | _, 0 => []
  | i, n + 1 => PipeEv.procStart i :: PipeEv.procDone i :: seqEvs (i + 1) n

/-! ## Plugin loading (plugin.ts) -/

/-- A word character of the `/^[\.\/\\]|^\w+\:/` test. -/
def isWordChar (c : Char) : Bool := c.isAlphanum || c == '_'

/-- `^\w+:` — a drive-like prefix: one or more word characters then a colon. -/
def hasDrivePrefix (name : String) : Bool :=
  let run := name.data.takeWhile isWordChar
  decide (0 < run.length) && ((name.data.drop run.length).head? == some ':')

/-- The relative-name test of `plugin` (plugin.ts:24): the name starts with
`.`, `/`, `\` or a drive prefix. -/
def isRelativeName (name : String) : Bool :=
  name.data.head? == some '.' || name.data.head? == some '/' ||
  name.data.head? == some '\\' || hasDrivePrefix name

/-- The ambient module system: `require.resolve` (`none` = it throws) and
`require` (the exported value, abstracted to a number; `0` plays the role of a
falsy export for the cache's truthiness test). -/
structure RequireEnv where
  requireResolve : String → Option String
  requireLoad : String → Nat

/-- The resolve-and-load tail of `plugin` (plugin.ts:26–42): resolve the name
against the working directory (relative names) or the vendor directory (bare
names), fall back to a plain `require.resolve`, then `require` the resolved
path and cache the export UNDER THE RESOLVED PATH — `name` was reassigned. The
third component records that resolution work was performed. -/
def pluginResolveLoad (env : RequireEnv) (cache : List (String × Nat)) (name : String) :
    Except String Nat × List (String × Nat) × Bool :=
  let isRel := isRelativeName name
  let resolved :=
    match env.requireResolve (resolvePath (if isRel then "." else "node_modules") name) with
    | some r => some r
    | none => env.requireResolve name
  match resolved with
  | none =>
    (Except.error (if isRel then "Cannot find plugin." else "Cannot find plugin. Use npm install."),
     cache, true)
  | some r => (Except.ok (env.requireLoad r), (r, env.requireLoad r) :: cache, true)

/-- `plugin(name)` (plugin.ts:18): return the cached export when the lookup
under the ORIGINAL name finds a truthy value; otherwise resolve and load. -/
def pluginCall (env : RequireEnv) (cache : List (String × Nat)) (name : String) :
    Except String Nat × List (String × Nat) × Bool :=
  match cache.find? (fun q => q.1 == name) with
  | some q => if q.2 != 0 then (Except.ok q.2, cache, false) else pluginResolveLoad env cache name
  | none => pluginResolveLoad env cache name

/-! ## Concrete fixtures shared by the witnesses and counterexamples -/

/-- The default globals: build mode defaults of file.ts (encoding utf-8, no
overwrite, source maps on, emit on, inline off, no callbacks or hooks). -/
def g0 : Globals := {}

/-- A trivial synchronous-read capability (every file reads as empty). -/
def fsEmpty : String → Buffer := fun _ => []

/-- A filesystem on which no path exists. -/
def fsNone : String → Bool := fun _ => false

/-- A file constructed with text data: `_destContent` populated, sibling empty. -/
def fC1 : FileSt := mkFile (some "/src/a.txt") none (some (Sum.inl "hi"))

/-- A modified file with source-map data, relative target path `a.js`, and no
per-file overrides. -/
def fC2 : FileSt :=
  { mkFile (some "/src/a.js") (some "a.js") (some (Sum.inl "var x;")) with
    sourceMapData := some "mapdata" }

/-- A fresh unmodified file with no per-file overrides. -/
def fC7 : FileSt := mkFile (some "/src/a.js") none none

/-- Exactly one dest slot is populated. -/
def destXor (f : FileSt) : Bool := f.destBuffer.isSome ^^ f.destContent.isSome

/-! ## Helper lemmas (shared) -/

/-- The source-slot getter never touches the dest slots. -/
theorem getSrcBuffer_dest (g : Globals) (fs : String → Buffer) (mode : Nat) (f : FileSt) :
    (f.getSrcBuffer g fs mode).2.destBuffer = f.destBuffer ∧
    (f.getSrcBuffer g fs mode).2.destContent = f.destContent := by
  unfold FileSt.getSrcBuffer
  rcases hsb : f.srcBuffer with _ | b
  · rcases hsc : f.srcContent with _ | c
    · by_cases h : (f.srcPath != "" && !isClean mode) = true <;> simp [h]
    · simp
  · simp

/-- The source-slot getter never touches the dest slots (text direction). -/
theorem getSrcContent_dest (g : Globals) (fs : String → Buffer) (mode : Nat) (f : FileSt) :
    (f.getSrcContent g fs mode).2.destBuffer = f.destBuffer ∧
    (f.getSrcContent g fs mode).2.destContent = f.destContent := by
  unfold FileSt.getSrcContent
  rcases hsc : f.srcContent with _ | c
  · rcases hsb : f.srcBuffer with _ | b
    · by_cases h : (f.srcPath != "" && !isClean mode) = true <;> simp [h]
    · simp
  · simp

/-- Reading `buffer` preserves `modified`: the getter creates no dest slot on
an unmodified file and clears none on a modified one. -/
theorem getBuffer_modified (g : Globals) (fs : String → Buffer) (mode : Nat) (f : FileSt) :
    (f.getBuffer g fs mode).2.modified = f.modified := by
  unfold FileSt.getBuffer
  rcases hdb : f.destBuffer with _ | b
  · rcases hdc : f.destContent with _ | c
    · have h := getSrcBuffer_dest g fs mode f
      simp [FileSt.modified, h.1, h.2]
    · simp [FileSt.modified, hdc]
  · simp [FileSt.modified, hdb]

/-- Reading `content` preserves `modified`. -/
theorem getContent_modified (g : Globals) (fs : String → Buffer) (mode : Nat) (f : FileSt) :
    (f.getContent g fs mode).2.modified = f.modified := by
  unfold FileSt.getContent
  rcases hdc : f.destContent with _ | c
  · rcases hdb : f.destBuffer with _ | b
    · have h := getSrcContent_dest g fs mode f
      simp [FileSt.modified, h.1, h.2]
    · simp [FileSt.modified, hdb]
  · simp [FileSt.modified, hdc]

/-! ## C1 -/

/-- C1 is false as stated: on a file whose only populated dest slot is
`_destContent`, reading `buffer` caches the converted bytes into `_destBuffer`
WITHOUT clearing `_destContent` (file.ts:207), so afterwards the file is
modified with BOTH dest slots populated — the exclusive-or is not preserved by
the lazy conversion in the getters. -/
theorem c1_counterexample :
    fC1.modified = true ∧ fC1.destContent.isSome = true ∧ fC1.destBuffer = none ∧
    (fC1.getBuffer g0 fsEmpty 0).2.destBuffer.isSome = true ∧
    (fC1.getBuffer g0 fsEmpty 0).2.destContent.isSome = true ∧
    (fC1.getBuffer g0 fsEmpty 0).2.modified = true := by decide

/-- C1 (corrected): writing `buffer` or `content` leaves exactly one dest slot
populated (the sibling is cleared) and marks the file modified; the getters
preserve `modified` in both directions; but reading `buffer` when only
`_destContent` is set populates `_destBuffer` while KEEPING `_destContent`, so
after a lazy conversion both dest slots are populated. -/
theorem c1_amended (g : Globals) (fs : String → Buffer) (mode : Nat) (f : FileSt)
    (b : Buffer) (s : String) :
    destXor (f.setBuffer b) = true ∧ destXor (f.setContent s) = true ∧
    (f.setBuffer b).modified = true ∧ (f.setContent s).modified = true ∧
    (f.getBuffer g fs mode).2.modified = f.modified ∧
    (f.getContent g fs mode).2.modified = f.modified ∧
    (f.destContent.isSome = true → f.destBuffer = none →
      (f.getBuffer g fs mode).2.destBuffer.isSome = true ∧
      (f.getBuffer g fs mode).2.destContent = f.destContent) := by
  refine ⟨by simp [destXor, FileSt.setBuffer], by simp [destXor, FileSt.setContent],
    by simp [FileSt.modified, FileSt.setBuffer], by simp [FileSt.modified, FileSt.setContent],
    getBuffer_modified g fs mode f, getContent_modified g fs mode f, ?_⟩
  intro hdc hdb
  rcases hc : f.destContent with _ | c
  · simp [hc] at hdc
  · unfold FileSt.getBuffer
    simp [hdb, hc]

/-- C1 witness: the amended statement evaluated on the concrete file `fC1`. -/
theorem c1_amended_witness :
    destXor (fC1.setBuffer [104]) = true ∧
    (fC1.getBuffer g0 fsEmpty 0).2.destBuffer.isSome = true ∧
    (fC1.getBuffer g0 fsEmpty 0).2.destContent = fC1.destContent :=
  ⟨(c1_amended g0 fsEmpty 0 fC1 [104] "s").1,
   ((c1_amended g0 fsEmpty 0 fC1 [104] "s").2.2.2.2.2.2 (by decide) (by decide)).1,
   ((c1_amended g0 fsEmpty 0 fC1 [104] "s").2.2.2.2.2.2 (by decide) (by decide)).2⟩

/-! ## C2 -/

/-- C2: the code is wrong at its own documented intent. In build mode with
source-map data, `sourceMapEmit` on and `sourceMapInline` off, `File.save`
passes `this.sourceMapUrl` — with NO fallback — as the emission URL
(file.ts:656); the relative URL computed at file.ts:642 is a dead binding. On
a file with no per-file/global `sourceMapUrl`, the content is written WITHOUT
any sourceMappingURL comment, while the spec's §4.2 step 5 prescribes the
relative URL `a.js.map`, whose emission would change the written bytes. -/
theorem c2_dead_sourceMapUrl :
    (fC2.save g0 fsEmpty 0 (some "/out")).actions =
      [SaveAction.writeF "/out/a.js" (stringToBuffer "var x;" "utf-8"),
       SaveAction.writeMap "/out/a.js.map" "mapdata"] ∧
    specEmissionUrl g0 "/out/a.js" "/out/a.js.map" fC2 = some "a.js.map" ∧
    stringToBuffer (emitSourceMapUrl "var x;" (some "a.js.map") true) "utf-8" ≠
      stringToBuffer "var x;" "utf-8" := by decide

/-! ## C7 -/

/-- C7: the code is wrong. The `sourceMapUrl` setter (file.ts:382) installs the
own property under the key `"sourceMapInline"`, so after `f.sourceMapUrl =
"m.map"` reading `f.sourceMapUrl` still yields the global fallback (absent)
while `f.sourceMapInline` has been clobbered with the string — contradicting
the setter's own doc comment; a correctly-keyed flag setter (`sourceMapEmit`)
does round-trip, with the getter falling back to the global default before any
override is set. -/
theorem c7_sourceMapUrl_setter_bug :
    (fC7.setSourceMapUrl (JsVal.vStr "m.map")).sourceMapUrlGet g0 = none ∧
    (fC7.setSourceMapUrl (JsVal.vStr "m.map")).sourceMapInlineGet g0 = JsVal.vStr "m.map" ∧
    fC7.sourceMapInlineGet g0 = JsVal.vBool false ∧
    (fC7.setSourceMapEmit (JsVal.vBool false)).sourceMapEmitGet g0 = JsVal.vBool false ∧
    fC7.sourceMapEmitGet g0 = JsVal.vBool true := by decide

/-- The source-slot getters leave the error counter alone. -/
theorem getSrcContent_errorCount (g : Globals) (fs : String → Buffer) (mode : Nat) (f : FileSt) :
    (f.getSrcContent g fs mode).2.errorCount = f.errorCount := by
  unfold FileSt.getSrcContent
  rcases hsc : f.srcContent with _ | c
  · rcases hsb : f.srcBuffer with _ | b
    · by_cases h : (f.srcPath != "" && !isClean mode) = true <;> simp [h]
    · simp
  · simp

/-- Reading `content` leaves the error counter alone. -/
theorem getContent_errorCount (g : Globals) (fs : String → Buffer) (mode : Nat) (f : FileSt) :
    (f.getContent g fs mode).2.errorCount = f.errorCount := by
  unfold FileSt.getContent
  rcases hdc : f.destContent with _ | c
  · rcases hdb : f.destBuffer with _ | b
    · exact getSrcContent_errorCount g fs mode f
    · simp
  · simp

/-- `File.error` bumps the error counter by exactly one. -/
theorem logError_errorCount (g : Globals) (fs : String → Buffer) (mode : Nat) (f : FileSt) :
    (f.logError g fs mode).errorCount = f.errorCount + 1 := by
  unfold FileSt.logError
  simp [getContent_errorCount]

/-- After the source-buffer getter, `_srcBuffer` is populated. -/
theorem getSrcBuffer_srcBuffer (g : Globals) (fs : String → Buffer) (mode : Nat) (f : FileSt) :
    (f.getSrcBuffer g fs mode).2.srcBuffer.isSome = true := by
  unfold FileSt.getSrcBuffer
  rcases hsb : f.srcBuffer with _ | b
  · rcases hsc : f.srcContent with _ | c
    · by_cases h : (f.srcPath != "" && !isClean mode) = true <;> simp [h]
    · simp
  · simp [hsb]

/-! ## C3 -/

/-- C3 (confirmed): with no validation hook and `savePath` path-equal to
`srcPath` — for any working mode, since the guard precedes the mode dispatch —
`File.save` (i) skips silently when the file is unmodified and no source map
would be emitted: no action, null callback error, untouched state; and (ii)
when the file counts as modified (dest slot populated, or map data present
with `sourceMapEmit` on) and overwrite is off, signals `EEXIST`: the error is
attached to the file as a diagnostic (error counter bumped), handed to the
callback, and no write or copy is performed. -/
theorem c3_overwrite_guard (g : Globals) (fs : String → Buffer) (mode : Nat)
    (f : FileSt) (dir : Option String)
    (hval : g.onValidateFile = none)
    (hpath : pathEquals f.srcPath (resolvePath (jsStrOr dir ".") f.path) = true) :
    ((f.modified || (f.sourceMapData.isSome && (f.sourceMapEmitGet g).truthy)) = false →
       f.save g fs mode dir = ⟨f, [], none⟩) ∧
    ((f.modified || (f.sourceMapData.isSome && (f.sourceMapEmitGet g).truthy)) = true →
      (f.overwriteGet g).truthy = false →
       (f.save g fs mode dir).cbErr = some ⟨"EEXIST"⟩ ∧
       (f.save g fs mode dir).actions = [] ∧
       (f.save g fs mode dir).file.errorCount = f.errorCount + 1) := by
  constructor
  · intro hmod
    simp [FileSt.save, validateRejects, hval, hpath, hmod]
  · intro hmod how
    simp [FileSt.save, validateRejects, hval, hpath, hmod, how, logError_errorCount]

/-- A modified file whose target path equals its source path. -/
def fC3 : FileSt := mkFile (some "/a.txt") none (some (Sum.inl "x"))

/-- C3 witness: the `EEXIST` branch evaluated on a concrete modified file saved
over its own source with the defaults (overwrite off). -/
theorem c3_overwrite_guard_witness :
    (fC3.save g0 fsEmpty 0 none).cbErr = some ⟨"EEXIST"⟩ ∧
    (fC3.save g0 fsEmpty 0 none).actions = [] ∧
    (fC3.save g0 fsEmpty 0 none).file.errorCount = fC3.errorCount + 1 :=
  (c3_overwrite_guard g0 fsEmpty 0 fC3 none rfl (by decide)).2 (by decide) (by decide)

/-! ## C9 -/

/-- C9 (confirmed): `File.load` issues an asynchronous read of `srcPath` only
when no content slot (src or dest) is populated, the mode is not clean, and the
source path is non-empty; in every other case it is a no-op calling back with a
null error. A successful read populates `_srcBuffer`; a failed read bumps the
file's error counter (the `file.error` diagnostic) and hands the error to the
callback. A generated file (empty `srcPath`) never touches the filesystem and
does not `exist`. -/
theorem c9_load (g : Globals) (fs : String → Buffer) (fsE : String → Bool) (mode : Nat)
    (readResult : Except Err Buffer) (f : FileSt) :
    ((f.srcPath = "" ∨ f.destContent.isSome = true ∨ f.destBuffer.isSome = true ∨
        f.srcBuffer.isSome = true ∨ f.srcContent.isSome = true ∨ isClean mode = true) →
      f.load g fs mode readResult = (f, LoadAction.noop, none)) ∧
    (f.srcPath ≠ "" → f.destContent = none → f.destBuffer = none → f.srcBuffer = none →
      f.srcContent = none → isClean mode = false →
      ((∀ b, readResult = Except.ok b →
          f.load g fs mode readResult =
            ({ f with srcBuffer := some b }, LoadAction.readSrc, none)) ∧
       (∀ e, readResult = Except.error e →
          (f.load g fs mode readResult).2 = (LoadAction.readSrc, some e) ∧
          (f.load g fs mode readResult).1.errorCount = f.errorCount + 1))) ∧
    (f.generated = true →
      f.load g fs mode readResult = (f, LoadAction.noop, none) ∧
      f.fileExists fsE = false) := by
  refine ⟨?_, ?_, ?_⟩
  · intro h
    have hC : (decide (f.srcPath = "") || f.destContent.isSome || f.destBuffer.isSome ||
        f.srcBuffer.isSome || f.srcContent.isSome || isClean mode) = true := by
      rcases h with h | h | h | h | h | h <;> simp [h]
    simp only [FileSt.load, hC, if_true]
  · intro h1 h2 h3 h4 h5 h6
    have hC : (decide (f.srcPath = "") || f.destContent.isSome || f.destBuffer.isSome ||
        f.srcBuffer.isSome || f.srcContent.isSome || isClean mode) = false := by
      simp [h1, h2, h3, h4, h5, h6]
    constructor
    · intro b hb
      simp only [FileSt.load, hC, if_false, hb, Bool.false_eq_true]
    · intro e he
      simp only [FileSt.load, hC, if_false, he, Bool.false_eq_true]
      simp [logError_errorCount]
  · intro hgen
    have hsp : f.srcPath = "" := by
      simpa [FileSt.generated] using hgen
    constructor
    · have hC : (decide (f.srcPath = "") || f.destContent.isSome || f.destBuffer.isSome ||
          f.srcBuffer.isSome || f.srcContent.isSome || isClean mode) = true := by
        simp [hsp]
      simp only [FileSt.load, hC, if_true]
    · simp [FileSt.fileExists, existsFileSync, hsp]

/-- A generated (synthesized) file: empty source path. -/
def fGen : FileSt := mkFile none none none

/-- C9 witness: a generated file — `load` is a no-op with a null error and the
file does not exist. -/
theorem c9_load_witness :
    fGen.load g0 fsEmpty 0 (Except.ok []) = (fGen, LoadAction.noop, none) ∧
    fGen.fileExists fsNone = false :=
  (c9_load g0 fsEmpty fsNone 0 (Except.ok []) fGen).2.2 (by decide)

/-! ## C10 -/

/-- An unmodified physical file for the clone witness. -/
def fC10 : FileSt := mkFile (some "/src/u.txt") none none

/-- C10 (confirmed): `File.clone` builds the copy from `data`, which is total
(dest slot if populated, else the final buffer, which for an unloaded source
falls back to a read or the empty buffer) — and a constructor `data` argument
always populates a dest slot, so every clone is modified, whether or not the
original was; cloning an unmodified file materializes the original's source
buffer as a side effect of reading `data`. -/
theorem c10_clone (g : Globals) (fs : String → Buffer) (mode : Nat) (f : FileSt)
    (sp p : Option String) (d : String ⊕ Buffer) :
    (f.clone g fs mode).1.modified = true ∧
    (mkFile sp p (some d)).modified = true ∧
    (f.modified = false → (f.clone g fs mode).2.srcBuffer.isSome = true) := by
  have hmk : ∀ (sp' p' : Option String) (d' : String ⊕ Buffer),
      (mkFile sp' p' (some d')).modified = true := by
    intro sp' p' d'
    rcases d' with s | b <;>
      simp [mkFile, FileSt.setData, FileSt.setContent, FileSt.setBuffer, FileSt.modified]
  refine ⟨hmk _ _ _, hmk _ _ _, ?_⟩
  intro hmod
  have hdc : f.destContent = none := by
    rcases h : f.destContent with _ | c
    · rfl
    · simp [FileSt.modified, h] at hmod
  have hdb : f.destBuffer = none := by
    rcases h : f.destBuffer with _ | b
    · rfl
    · simp [FileSt.modified, h] at hmod
  unfold FileSt.clone FileSt.getData FileSt.getBuffer
  simp only [hdc, hdb]
  exact getSrcBuffer_srcBuffer g fs mode f

/-- C10 witness: cloning the concrete unmodified file `fC10` yields a modified
copy and materializes the original's source buffer. -/
theorem c10_clone_witness :
    (fC10.clone g0 fsEmpty 0).1.modified = true ∧
    (fC10.clone g0 fsEmpty 0).2.srcBuffer.isSome = true :=
  ⟨(c10_clone g0 fsEmpty 0 fC10 none none (Sum.inl "x")).1,
   (c10_clone g0 fsEmpty 0 fC10 none none (Sum.inl "x")).2.2 (by decide)⟩

/-! ## C4 / C5 — pipe -/

/-- Per-file pipe stages keep their pending count and append one output per
`data` event. -/
theorem pipeData_foldl (g : Globals) (fs : String → Buffer) (mode : Nat)
    (p : FileSt → ProcResult) (files : List FileSt) (st : PipeSt) (h : st.pending ≠ 0) :
    files.foldl (pipeData g fs mode p) st =
      ⟨st.pending, st.out ++ files.map (pipeFileStep g fs mode p), st.ended⟩ := by
  induction files generalizing st with
  | nil => cases st; simp
  | cons f rest ih =>
    show rest.foldl (pipeData g fs mode p) (pipeData g fs mode p st f) = _
    have hps : pipeData g fs mode p st f =
        ⟨st.pending, st.out ++ [pipeFileStep g fs mode p f], st.ended⟩ := by
      unfold pipeData
      simp [h]
    rw [hps, ih ⟨st.pending, st.out ++ [pipeFileStep g fs mode p f], st.ended⟩ h]
    simp

/-- A per-file pipe stage over `files` ends with exactly the per-file outputs,
in arrival order. -/
theorem pipePerFile_out (g : Globals) (fs : String → Buffer) (mode : Nat)
    (p : FileSt → ProcResult) (files : List FileSt) :
    pipePerFile g fs mode p files = ⟨0, files.map (pipeFileStep g fs mode p), true⟩ := by
  unfold pipePerFile
  rw [pipeData_foldl g fs mode p files ⟨1, [], false⟩ (by decide)]
  unfold pipeEndEvent
  simp

/-- The whole-list stage at arity 4 keeps exactly the files whose processor
completed via `done`. -/
theorem pipeWhole_four (p : FileSt → ProcResult) (files : List FileSt) :
    pipeWhole 4 p files = files.filterMap (fun f =>
      match p f with
      | ProcResult.ok f' => some f'
      | ProcResult.thrown _ => none) := by
  induction files with
  | nil => rfl
  | cons f rest ih =>
    unfold pipeWhole
    rcases hp : p f with f' | f' <;> simp [hp, ih]

/-- A file for the pipe counterexample and witness. -/
def fC4 : FileSt := mkFile (some "/src/b.txt") none (some (Sum.inl "b"))

/-- C4 is false as stated for whole-list arity 4: when the processor throws,
the catch handler (fileList.ts:1280) attaches the error and moves to the next
file WITHOUT adding the current one, so one upstream file yields zero
downstream outputs even though arity 4 is not the exempted "arity ≥ 5" case. -/
theorem c4_counterexample :
    pipeFn g0 fsEmpty 0 4 (fun f => ProcResult.thrown f) [fC4] = [] ∧
    [fC4].length = 1 := by
  constructor <;> rfl

/-- C4 (corrected): after `pipe(p).end`, the downstream list has exactly one
output per upstream file in the per-file modes (arity < 4) — there `done` runs
even when the processor throws, the exception being attached to the file as an
error diagnostic — but in whole-list mode (arity 4) only the files whose
processor completes via `done` are added: a throwing invocation is caught, the
pipeline continues, and that file is omitted (arity ≥ 5 adds nothing
implicitly). -/
theorem c4_amended (g : Globals) (fs : String → Buffer) (mode : Nat)
    (p : FileSt → ProcResult) (files : List FileSt) (arity : Nat) (h : arity < 4) :
    (pipeFn g fs mode arity p files).length = files.length ∧
    pipeFn g fs mode arity p files = files.map (pipeFileStep g fs mode p) ∧
    pipeFn g fs mode 4 p files = files.filterMap (fun f =>
      match p f with
      | ProcResult.ok f' => some f'
      | ProcResult.thrown _ => none) := by
  refine ⟨?_, ?_, ?_⟩
  · simp [pipeFn, h, pipePerFile_out]
  · simp [pipeFn, h, pipePerFile_out]
  · simp [pipeFn, pipeWhole_four]

/-- C4 witness: a per-file stage (arity 0) over one file whose processor
throws still delivers exactly one output. -/
theorem c4_amended_witness :
    (pipeFn g0 fsEmpty 0 0 (fun f => ProcResult.thrown f) [fC4]).length = [fC4].length :=
  (c4_amended g0 fsEmpty 0 (fun f => ProcResult.thrown f) [fC4] 0 (by decide)).1

/-- The whole-list trace over processors that always complete. -/
theorem pipeWholeTraceAux_ok (pf : FileSt → FileSt) (files : List FileSt) (i : Nat)
    (acc : List FileSt) :
    pipeWholeTraceAux 4 (fun f => ProcResult.ok (pf f)) i files acc =
      (seqEvs i files.length ++ [PipeEv.downstreamEnd (acc ++ files.map pf)],
       acc ++ files.map pf) := by
  induction files generalizing i acc with
  | nil => simp [pipeWholeTraceAux, seqEvs]
  | cons f rest ih =>
    unfold pipeWholeTraceAux
    simp [ih, seqEvs]

/-- C5 (confirmed): for a whole-list processor (arity 4) that completes on
every file, the stage trace is exactly — the upstream `end`, then the files
processed strictly sequentially (invocation i+1 starts only after invocation
i's `done`), then the downstream `end`; and the downstream list holds the
processed files in exactly the upstream `end` order. -/
theorem c5_whole_list_order (pf : FileSt → FileSt) (files : List FileSt) :
    pipeWholeTrace 4 (fun f => ProcResult.ok (pf f)) files =
      PipeEv.upstreamEnd ::
        (seqEvs 0 files.length ++ [PipeEv.downstreamEnd (files.map pf)]) ∧
    pipeWhole 4 (fun f => ProcResult.ok (pf f)) files = files.map pf := by
  constructor
  · unfold pipeWholeTrace
    rw [pipeWholeTraceAux_ok]
    simp
  · induction files with
    | nil => rfl
    | cons f rest ih => simp [pipeWhole, ih]

/-! ## C6 — event replay -/

/-- `addAll` appends the added files in order. -/
theorem addAll_files (l : FileListSt) (files : List FileSt) :
    (l.addAll files).files = l.files ++ files := by
  induction files generalizing l with
  | nil => simp [FileListSt.addAll]
  | cons f rest ih =>
    show ((l.add f).1.addAll rest).files = _
    rw [ih]
    simp [FileListSt.add]

/-- C6 (confirmed): a listener subscribed to `data` after `files` were added is
invoked synchronously — during the `on` call — once per buffered file in
arrival order; a listener subscribed to `end` after `end()` fired is invoked
synchronously with the list's files. -/
theorem c6_replay (files : List FileSt) (lid : Nat) :
    ((FileListSt.addAll {} files).onData lid).2 =
      files.map (fun f => ⟨lid, Sum.inl f⟩) ∧
    ((FileListSt.addAll {} files).endList.1.onEnd lid).2 = [⟨lid, Sum.inr files⟩] := by
  have hfiles : (FileListSt.addAll {} files).files = files := by
    rw [addAll_files]
    rfl
  constructor
  · simp [FileListSt.onData, hfiles]
  · simp [FileListSt.onEnd, FileListSt.endList, hfiles]

/-! ## C8 — plugin memoization -/

/-- A module system with one vendor plugin `digo-x`, every export truthy. -/
def envC8 : RequireEnv :=
  { requireResolve := fun s =>
      if s = "node_modules/digo-x" then some "/nm/digo-x/index.js" else none,
    requireLoad := fun _ => 1 }

/-- C8 is false as stated: the cache is written under the RESOLVED path
(`name` is reassigned before `plugins[name] = require(name)`, plugin.ts:27,38),
so a second `plugin` call with the same bare name misses the cache — its lookup
key is the original name — and performs resolution again (third component of
the outcome). -/
theorem c8_counterexample :
    (pluginCall envC8 [] "digo-x").2.2 = true ∧
    (pluginCall envC8 (pluginCall envC8 [] "digo-x").2.1 "digo-x").2.2 = true := by
  constructor <;> rfl

/-- C8 (corrected): relative names resolve against the working directory and
bare names against the vendor directory, and the export is cached — but under
the resolved module path: a call whose argument equals a previously resolved
path (and whose cached export is truthy) returns the cached value with no
resolution, while a repeat call with the original unresolved name resolves
again. -/
theorem c8_amended (env : RequireEnv) (cache : List (String × Nat)) (name r : String)
    (hmiss : cache.find? (fun q => q.1 == name) = none)
    (hres : env.requireResolve
      (resolvePath (if isRelativeName name then "." else "node_modules") name) = some r)
    (hload : env.requireLoad r ≠ 0) :
    pluginCall env cache name =
      (Except.ok (env.requireLoad r), (r, env.requireLoad r) :: cache, true) ∧
    pluginCall env ((r, env.requireLoad r) :: cache) r =
      (Except.ok (env.requireLoad r), (r, env.requireLoad r) :: cache, false) := by
  constructor
  · simp [pluginCall, hmiss, pluginResolveLoad, hres]
  · simp [pluginCall, List.find?, hload]

/-- C8 witness: the amended laws evaluated on the concrete module system
`envC8` — the first call caches under `/nm/digo-x/index.js`; a call with that
resolved path hits the cache without resolution. -/
theorem c8_amended_witness :
    pluginCall envC8 [] "digo-x" =
      (Except.ok 1, [("/nm/digo-x/index.js", 1)], true) ∧
    pluginCall envC8 [("/nm/digo-x/index.js", 1)] "/nm/digo-x/index.js" =
      (Except.ok 1, [("/nm/digo-x/index.js", 1)], false) :=
  c8_amended envC8 [] "digo-x" "/nm/digo-x/index.js" (by decide) (by decide) (by decide)

end Digo
